import Mathlib

/-!
Verification of the Joshua Project geographic-enrichment core
(`enrich_with_coordinates.py` and `create_enriched_datasets.py`).

Records are modelled as Python dictionaries: association lists from field
names to JSON-like values.  A value can be `null` (Python `None`), a string,
a number (modelled as `Rat`; Python's `0` and `0.0` coincide), the floating
NaN sentinel, or a nested object (used by the cross-dataset denormalizer,
which embeds a nested group under `country_data` / `language_data`).
Python falsiness, `pd.isna`, `str(...)`, `str.strip` and `str.split(',')`
are given explicit models.  Fallible operations (`d[k]` subscripting, which
raises `KeyError`, and `xs[0]`, which raises `IndexError`) return `Option`.
-/

namespace JoshuaGeo

/-- JSON-like scalar or nested-object value stored in a record field. -/
inductive JValue where
  | null
  | str (s : String)
  | num (q : Rat)
  | nan
  | obj (fields : List (String × JValue))

mutual

/-- Structural boolean equality on values (needed because `deriving
DecidableEq` is unavailable for this nested inductive). -/
def JValue.beq : JValue → JValue → Bool
  | .null, .null => true
  | .str a, .str b => a == b
  | .num a, .num b => a == b
  | .nan, .nan => true
  | .obj a, .obj b => JValue.beqFields a b
  | _, _ => false

/-- Pointwise boolean equality on field lists. -/
def JValue.beqFields : List (String × JValue) → List (String × JValue) → Bool
  | [], [] => true
  | (k, v) :: xs, (k2, v2) :: ys => k == k2 && JValue.beq v v2 && JValue.beqFields xs ys
  | _, _ => false

end

mutual

theorem JValue.eq_of_beq : ∀ (a b : JValue), JValue.beq a b = true → a = b
  | .null, .null, _ => rfl
  | .null, .str _, h => by simp [JValue.beq] at h
  | .null, .num _, h => by simp [JValue.beq] at h
  | .null, .nan, h => by simp [JValue.beq] at h
  | .null, .obj _, h => by simp [JValue.beq] at h
  | .str _, .null, h => by simp [JValue.beq] at h
  | .str a, .str b, h => by
      have hb : a = b := by simpa [JValue.beq] using h
      rw [hb]
  | .str _, .num _, h => by simp [JValue.beq] at h
  | .str _, .nan, h => by simp [JValue.beq] at h
  | .str _, .obj _, h => by simp [JValue.beq] at h
  | .num _, .null, h => by simp [JValue.beq] at h
  | .num _, .str _, h => by simp [JValue.beq] at h
  | .num a, .num b, h => by
      have hb : a = b := by simpa [JValue.beq] using h
      rw [hb]
  | .num _, .nan, h => by simp [JValue.beq] at h
  | .num _, .obj _, h => by simp [JValue.beq] at h
  | .nan, .null, h => by simp [JValue.beq] at h
  | .nan, .str _, h => by simp [JValue.beq] at h
  | .nan, .num _, h => by simp [JValue.beq] at h
  | .nan, .nan, _ => rfl
  | .nan, .obj _, h => by simp [JValue.beq] at h
  | .obj _, .null, h => by simp [JValue.beq] at h
  | .obj _, .str _, h => by simp [JValue.beq] at h
  | .obj _, .num _, h => by simp [JValue.beq] at h
  | .obj _, .nan, h => by simp [JValue.beq] at h
  | .obj a, .obj b, h => by
      have hb : JValue.beqFields a b = true := by simpa [JValue.beq] using h
      rw [JValue.eqFields_of_beqFields a b hb]

theorem JValue.eqFields_of_beqFields :
    ∀ (a b : List (String × JValue)), JValue.beqFields a b = true → a = b
  | [], [], _ => rfl
  | [], _ :: _, h => by simp [JValue.beqFields] at h
  | _ :: _, [], h => by simp [JValue.beqFields] at h
  | (k, v) :: xs, (k2, v2) :: ys, h => by
      have h3 : (k == k2 && JValue.beq v v2 && JValue.beqFields xs ys) = true := by
        simpa [JValue.beqFields] using h
      have hk : k = k2 := by
        have hkk := (Bool.and_eq_true _ _ |>.mp ((Bool.and_eq_true _ _ |>.mp h3).1)).1
        simpa using hkk
      have hv : v = v2 :=
        JValue.eq_of_beq v v2 (Bool.and_eq_true _ _ |>.mp ((Bool.and_eq_true _ _ |>.mp h3).1)).2
      have ht : xs = ys :=
        JValue.eqFields_of_beqFields xs ys (Bool.and_eq_true _ _ |>.mp h3).2
      rw [hk, hv, ht]

end

mutual

theorem JValue.beq_self : ∀ (a : JValue), JValue.beq a a = true
  | .null => rfl
  | .str a => by simp [JValue.beq]
  | .num a => by simp [JValue.beq]
  | .nan => rfl
  | .obj a => by simpa [JValue.beq] using JValue.beqFields_self a

theorem JValue.beqFields_self : ∀ (a : List (String × JValue)), JValue.beqFields a a = true
  | [] => rfl
  | (k, v) :: xs => by
      simp [JValue.beqFields, JValue.beq_self v, JValue.beqFields_self xs]

end

instance : DecidableEq JValue := fun a b =>
  decidable_of_iff (JValue.beq a b = true)
    ⟨JValue.eq_of_beq a b, fun h => h ▸ JValue.beq_self a⟩

/-- Python truthiness: `None`, `''`, `0` and `0.0` are falsy; NaN and any
dict (even empty, as a key guard value never arises) follow Python where it
matters — note Python's `float('nan')` is truthy and an empty dict is falsy. -/
def JValue.truthy : JValue → Bool
  | .null => false
  | .str s => s ≠ ""
  | .num q => q ≠ 0
  | .nan => true
  | .obj fields => fields ≠ []

/-- `pandas.isna`: true exactly on `None` and float NaN; strings and numbers
(including `0`) are not "na". -/
def JValue.isna : JValue → Bool
  | .null => true
  | .nan => true
  | _ => false

/-- Python `str(...)` on the values that can reach the key normalizer:
`str(None) = "None"`, `str(float('nan')) = "nan"`, strings unchanged,
integers in decimal (non-integer rationals use Lean's rendering, and a dict
argument is abbreviated to its brace-wrapped shape; no claim reaches either
case, only the string-, absent-, `None`- and NaN-valued key fields do). -/
def pyStr : JValue → String
  | .null => "None"
  | .str s => s
  | .nan => "nan"
  | .num q => if q.den = 1 then toString q.num else toString q
  | .obj _ => "\x7b...\x7d"

/-- A record (Python `dict`) is an association list with the insertion
order of CPython dicts; keys are unique by construction of `setField`. -/
abbrev JRecord := List (String × JValue)

/-- Python `d.get(k)` / `k in d` membership probe: first (unique) binding. -/
def getField : JRecord → String → Option JValue
  | [], _ => none
  | (k', v) :: rest, k => if k' = k then some v else getField rest k

/-- Python `d.get(k, default)`. -/
def getFieldD (r : JRecord) (k : String) (d : JValue) : JValue :=
  (getField r k).getD d

/-- Python `d[k] = v` on a copy: updates the existing binding in place
(CPython keeps the key's position) or appends a new binding at the end. -/
def setField : JRecord → String → JValue → JRecord
  | [], k, v => [(k, v)]
  | (k', v') :: rest, k, v =>
      if k' = k then (k', v) :: rest else (k', v') :: setField rest k v

/-- Generic dict lookup for the index tables (keys of arbitrary type). -/
def dictGet? {α β : Type} [DecidableEq α] : List (α × β) → α → Option β
  | [], _ => none
  | (k', v) :: rest, k => if k' = k then some v else dictGet? rest k

/-- Generic dict assignment `d[k] = v` (update-in-place-or-append). -/
def dictSet {α β : Type} [DecidableEq α] : List (α × β) → α → β → List (α × β)
  | [], k, v => [(k, v)]
  | (k', v') :: rest, k, v =>
      if k' = k then (k', v) :: rest else (k', v') :: dictSet rest k v

/-- `if code not in d: d[code] = []` followed by `d[code].append(x)`. -/
def dictAppend {α β : Type} [DecidableEq α] : List (α × List β) → α → β → List (α × List β)
  | [], k, v => [(k, [v])]
  | (k', vs) :: rest, k, v =>
      if k' = k then (k', vs ++ [v]) :: rest else (k', vs) :: dictAppend rest k v

/-- Membership of a (possibly non-string) Python value in a string-keyed
dict: a non-string value never equals a string key. -/
def strDictGet? {α : Type} (d : List (String × α)) : JValue → Option α
  | .str s => dictGet? d s
  | _ => none

/-!
## Lookup Index Builder (`build_lookup_tables`, `enrich_with_coordinates.py`)
-/

/-- One step of the country-centroid index build (source lines 81–87):
`iso_a2 = country.get('iso_a2')`, `if iso_a2: lookup[iso_a2] = country`,
then the same for `iso_a3`. -/
def insertCentroid (lookup : List (JValue × JRecord)) (country : JRecord) :
    List (JValue × JRecord) :=
  let iso_a2 := getFieldD country "iso_a2" .null
  let lookup := if iso_a2.truthy then dictSet lookup iso_a2 country else lookup
  let iso_a3 := getFieldD country "iso_a3" .null
  if iso_a3.truthy then dictSet lookup iso_a3 country else lookup

/-- `centroid_lookup`: single-valued index of country centroids by ISO code;
later records silently overwrite earlier ones on key collision. -/
def build_centroid_lookup (centroids : List JRecord) : List (JValue × JRecord) :=
  centroids.foldl insertCentroid []

/-- The whitespace set of Python `str.strip()`. -/
def pyIsSpace (c : Char) : Bool :=
  c = ' ' || c = '\t' || c = '\n' || c = '\r' || c = '\x0b' || c = '\x0c'

/-- Python `str.strip()`: drop leading and trailing whitespace. -/
def pyStrip (s : String) : String :=
  String.mk (((s.data.dropWhile pyIsSpace).reverse.dropWhile pyIsSpace).reverse)

/-- Split a character list on a separator character; `[]` yields `[[]]`,
like Python `''.split(',') == ['']`. -/
def splitChar (c : Char) : List Char → List (List Char)
  | [] => [[]]
  | x :: xs =>
    match splitChar c xs with
    | [] => [[]]
    | g :: gs => if x = c then [] :: g :: gs else (x :: g) :: gs

/-- Python `s.split(',')`. -/
def splitComma (s : String) : List String :=
  (splitChar ',' s.data).map String.mk

/-- Key Normalizer for the glottolog index (source lines 94–99):
`str(lang.get('isocodes', '')).strip()`, reject `''` and the literal
`'nan'`, split on commas, strip each part, drop empty parts. -/
def normalizeIsoCodes (raw : JValue) : List String :=
  let iso_codes := pyStrip (pyStr raw)
  if iso_codes ≠ "" ∧ iso_codes ≠ "nan" then
    ((splitComma iso_codes).map pyStrip).filter (fun c => c ≠ "")
  else []

/-- One step of the glottolog index build: append the record to each of its
normalized keys, in key order. -/
def insertGlottolog (lookup : List (String × List JRecord)) (lang : JRecord) :
    List (String × List JRecord) :=
  (normalizeIsoCodes (getFieldD lang "isocodes" (.str ""))).foldl
    (fun lookup code => dictAppend lookup code lang) lookup

/-- `glottolog_lookup`: one-to-many index of glottolog records by ISO code,
preserving source collection order within each key's list. -/
def build_glottolog_lookup (glottolog : List JRecord) : List (String × List JRecord) :=
  glottolog.foldl insertGlottolog []

/-!
## Family Resolver (`enrich_languages`, source lines 190–203)
-/

/-- The two-step family resolution with its fallback chain, exactly as the
nested conditionals at source lines 191–203 compute `(family_name,
family_id)` for the matched candidate's `glottocode` value:
`if glottocode and glottocode in glottocode_to_family:` take the recorded
parent (name via `family_lookup.get(family_id, '')`); `elif glottocode and
glottocode in family_lookup:` self entry; `else` `'Isolate' if glottocode
else ''` with empty identifier.  A non-string truthy value is never a key
of either string-keyed map, so it falls to the isolate arm, as in Python. -/
def resolveFamily (family_lookup glottocode_to_family : List (String × String))
    (glottocode : JValue) : String × String :=
  if glottocode.truthy then
    match glottocode with
    | .str s =>
      match dictGet? glottocode_to_family s with
      | some family_id => ((dictGet? family_lookup family_id).getD "", family_id)
      | none =>
        match dictGet? family_lookup s with
        | some name => (name, s)
        | none => ("Isolate", "")
    | _ => ("Isolate", "")
  else ("", "")

/-!
## Record Enricher, language pass (`enrich_languages`, source lines 170–221)
-/

/-- Field names added to a language record by `enrich_languages`. -/
def langAddedFields : List String :=
  ["latitude", "longitude", "glottocode", "family_name", "family_id",
   "macroarea", "coordinate_source", "glottolog_match_count"]

/-- Body of the `enrich_languages` loop for one record.  `none` models the
`IndexError` of `glotto_entries[0]` on an empty candidate list, which a
built index never contains. -/
def enrich_language (glottolog_lookup : List (String × List JRecord))
    (family_lookup glottocode_to_family : List (String × String))
    (lang : JRecord) : Option JRecord :=
  let iso_code := getFieldD lang "ROL3" (.str "")
  match (if iso_code.truthy then strDictGet? glottolog_lookup iso_code else none) with
  | some glotto_entries =>
    match glotto_entries with
    | [] => none
    | glotto :: _ =>
      let lat := getFieldD glotto "latitude" .null
      let lng := getFieldD glotto "longitude" .null
      let glottocode := getFieldD glotto "glottocode" (.str "")
      let fam := resolveFamily family_lookup glottocode_to_family glottocode
      let e := setField lang "latitude" (if lat.isna then .null else lat)
      let e := setField e "longitude" (if lng.isna then .null else lng)
      let e := setField e "glottocode" glottocode
      let e := setField e "family_name" (.str fam.1)
      let e := setField e "family_id" (.str fam.2)
      let e := setField e "macroarea" (getFieldD glotto "macroarea" (.str ""))
      let e := setField e "coordinate_source" (.str "Glottolog")
      let e := setField e "glottolog_match_count" (.num (glotto_entries.length : Rat))
      some e
  | none =>
      let e := setField lang "latitude" .null
      let e := setField e "longitude" .null
      let e := setField e "glottocode" .null
      let e := setField e "family_name" .null
      let e := setField e "family_id" .null
      let e := setField e "macroarea" .null
      let e := setField e "coordinate_source" .null
      let e := setField e "glottolog_match_count" (.num 0)
      some e

/-- The per-record `for` loop of either enrichment pass: appends the
enriched copy of each record in order; an exception in the body (modelled
by `none` from the per-record function) propagates and aborts the pass. -/
def runPass (f : JRecord → Option JRecord) : List JRecord → Option (List JRecord)
  | [] => some []
  | x :: rest =>
    match f x, runPass f rest with
    | some e, some es => some (e :: es)
    | _, _ => none

/-- The `enrich_languages` loop over the whole primary collection. -/
def enrich_languages_pass (glottolog_lookup : List (String × List JRecord))
    (family_lookup glottocode_to_family : List (String × String)) :
    List JRecord → Option (List JRecord) :=
  runPass (enrich_language glottolog_lookup family_lookup glottocode_to_family)

/-- Hit condition of the language pass: `if iso_code and iso_code in
glottolog_lookup`. -/
def langHit (glottolog_lookup : List (String × List JRecord)) (lang : JRecord) : Bool :=
  (getFieldD lang "ROL3" (.str "")).truthy
    && (strDictGet? glottolog_lookup (getFieldD lang "ROL3" (.str ""))).isSome

/-!
## Record Enricher, country pass (`enrich_people_groups`, source lines 129–152)
-/

/-- Field names added to a people-group record by `enrich_people_groups`. -/
def pgAddedFields : List String :=
  ["country_latitude", "country_longitude", "continent", "region_un",
   "coordinate_source"]

/-- Body of the `enrich_people_groups` loop for one record.  `none` models
the `KeyError` of the direct subscripts `centroid['latitude']` /
`centroid['longitude']` on a malformed reference record. -/
def enrich_people_group (centroid_lookup : List (JValue × JRecord))
    (pg : JRecord) : Option JRecord :=
  let country_code := getFieldD pg "ROG3" (.str "")
  match dictGet? centroid_lookup country_code with
  | some centroid =>
    match getField centroid "latitude", getField centroid "longitude" with
    | some lat, some lng =>
      let e := setField pg "country_latitude" lat
      let e := setField e "country_longitude" lng
      let e := setField e "continent" (getFieldD centroid "continent" (.str ""))
      let e := setField e "region_un" (getFieldD centroid "region_un" (.str ""))
      let e := setField e "coordinate_source" (.str "Natural Earth (country centroid)")
      some e
    | _, _ => none
  | none =>
      let e := setField pg "country_latitude" .null
      let e := setField e "country_longitude" .null
      let e := setField e "continent" .null
      let e := setField e "region_un" .null
      let e := setField e "coordinate_source" .null
      some e

/-- The `enrich_people_groups` loop over the whole primary collection. -/
def enrich_people_groups (centroid_lookup : List (JValue × JRecord)) :
    List JRecord → Option (List JRecord) :=
  runPass (enrich_people_group centroid_lookup)

/-- Hit condition of the country pass: `if country_code in centroid_lookup`. -/
def pgHit (centroid_lookup : List (JValue × JRecord)) (pg : JRecord) : Bool :=
  (dictGet? centroid_lookup (getFieldD pg "ROG3" (.str ""))).isSome

/-- `matched` counter of the country pass. -/
def pgMatched (centroid_lookup : List (JValue × JRecord)) (pgs : List JRecord) : Nat :=
  pgs.countP (fun pg => pgHit centroid_lookup pg)

/-- Add to the diagnostic set (`set.add`): dedup, keeping insertion order
(the set is sorted before it is reported, so the order is immaterial). -/
def addToSet (s : List String) (x : String) : List String :=
  if s.contains x then s else s ++ [x]

/-- `unmatched_countries`: on a miss, `if country_code:
unmatched_countries.add(country_code)`.  The stored element is the textual
form of the code (the codes are strings in every reachable case). -/
def pgUnmatched (centroid_lookup : List (JValue × JRecord)) (pgs : List JRecord) :
    List String :=
  pgs.foldl
    (fun s pg =>
      let country_code := getFieldD pg "ROG3" (.str "")
      if pgHit centroid_lookup pg then s
      else if country_code.truthy then addToSet s (pyStr country_code) else s)
    []

/-!
## Aggregation/Reporting (`enrich_people_groups` lines 154–158,
`save_enriched_data` lines 253–274)
-/

/-- Lexicographic code-point comparison of character lists — the order
Python `sorted` uses on strings. -/
def charListLt : List Char → List Char → Bool
  | [], [] => false
  | [], _ :: _ => true
  | _ :: _, [] => false
  | x :: xs, y :: ys =>
    if x.toNat < y.toNat then true
    else if y.toNat < x.toNat then false
    else charListLt xs ys

/-- Python string comparison `x < y`. -/
def strLt (x y : String) : Bool := charListLt x.data y.data

/-- Ascending insertion into a sorted list of strings (code-point order,
matching Python `sorted` on a set of strings). -/
def insertStr (x : String) : List String → List String
  | [] => [x]
  | y :: ys => if strLt x y then x :: y :: ys else y :: insertStr x ys

/-- Python `sorted` on a set of strings. -/
def sortStrs : List String → List String
  | [] => []
  | x :: xs => insertStr x (sortStrs xs)

/-- Round `n / d` to the nearest integer, ties to even — the rounding of
Python's `format(x, '.1f')` applied to the exactly-represented quotients
the claims exercise. -/
def roundHalfEven (n d : Nat) : Nat :=
  let q := n / d
  let r := n % d
  if 2 * r < d then q
  else if 2 * r > d then q + 1
  else if q % 2 = 0 then q else q + 1

/-- `f'{100 * matched / total:.1f}%'`: the match-rate/coverage rendering to
one decimal percentage.  Callers must rule out `total = 0` themselves, as
the source's division does not. -/
def fmtPercent (matched total : Nat) : String :=
  let tenths := roundHalfEven (1000 * matched) total
  toString (tenths / 10) ++ "." ++ toString (tenths % 10) ++ "%"

/-- The figures the country pass prints at source lines 154–158. -/
structure CoverageReport where
  total : Nat
  matched : Nat
  rate : String
  sample : List String
  deriving DecidableEq

/-- The country pass together with its aggregate report: the loop runs
first; then `match_rate = 100 * matched / len(people_groups)` raises
`ZeroDivisionError` (modelled as `none`) on an empty collection; the
unmatched sample is `sorted(unmatched_countries)[:10]`. -/
def pgReport (centroid_lookup : List (JValue × JRecord)) (pgs : List JRecord) :
    Option CoverageReport :=
  match enrich_people_groups centroid_lookup pgs with
  | none => none
  | some _ =>
    if pgs.length = 0 then none
    else some
      { total := pgs.length
        matched := pgMatched centroid_lookup pgs
        rate := fmtPercent (pgMatched centroid_lookup pgs) pgs.length
        sample := (sortStrs (pgUnmatched centroid_lookup pgs)).take 10 }

/-- `pg_with_coords` in `save_enriched_data` (line 254): records whose
attached `country_latitude` is truthy — not records that matched. -/
def pgWithCoords (enriched : List JRecord) : Nat :=
  enriched.countP (fun pg => (getFieldD pg "country_latitude" .null).truthy)

/-!
## Cross-dataset denormalizer (`enrich_people_group`,
`create_enriched_datasets.py` lines 85–127)
-/

/-- The nested `country_data` group built on a country hit. -/
def countryDataGroup (country : JRecord) : JValue :=
  .obj [
    ("name", getFieldD country "Ctry" .null),
    ("continent", getFieldD country "Continent" .null),
    ("region", getFieldD country "RegionName" .null),
    ("percent_christianity", getFieldD country "PercentChristianity" .null),
    ("percent_evangelical", getFieldD country "PercentEvangelical" .null),
    ("total_peoples", getFieldD country "CntPeoples" .null),
    ("unreached_peoples", getFieldD country "CntPeoplesLR" .null),
    ("jp_scale", getFieldD country "JPScaleCtry" .null)]

/-- The nested `language_data` group built on a language hit. -/
def languageDataGroup (language : JRecord) : JValue :=
  .obj [
    ("name", getFieldD language "Language" .null),
    ("hub_country", getFieldD language "HubCountry" .null),
    ("bible_status", getFieldD language "BibleStatus" .null),
    ("bible_year", getFieldD language "BibleYear" .null),
    ("nt_year", getFieldD language "NTYear" .null),
    ("portions_year", getFieldD language "PortionsYear" .null),
    ("has_jesus_film", getFieldD language "HasJesusFilm" .null),
    ("has_audio_recordings", getFieldD language "AudioRecordings" .null),
    ("status", getFieldD language "Status" .null),
    ("latitude", getFieldD language "latitude" .null),
    ("longitude", getFieldD language "longitude" .null),
    ("glottocode", getFieldD language "glottocode" .null),
    ("family_name", getFieldD language "family_name" .null),
    ("family_id", getFieldD language "family_id" .null),
    ("macroarea", getFieldD language "macroarea" .null)]

/-- `enrich_people_group` of `create_enriched_datasets.py`: two independent
all-or-nothing lookups; on a miss nothing at all is attached for that
lookup (no null placeholder, no diagnostics). -/
def enrich_people_group_full (countries languages : List (JValue × JRecord))
    (pg : JRecord) : JRecord :=
  let enriched := pg
  let country_code := getFieldD pg "ROG3" .null
  let enriched :=
    match (if country_code.truthy then dictGet? countries country_code else none) with
    | some country => setField enriched "country_data" (countryDataGroup country)
    | none => enriched
  let language_code := getFieldD pg "ROL3" .null
  match (if language_code.truthy then dictGet? languages language_code else none) with
  | some language => setField enriched "language_data" (languageDataGroup language)
  | none => enriched

/-- A centroid record contributes the key `k` when one of its (truthy)
`iso_a2` / `iso_a3` values equals `k`. -/
def contributesKey (country : JRecord) (k : JValue) : Bool :=
  ((getFieldD country "iso_a2" .null).truthy && decide (getFieldD country "iso_a2" .null = k)) ||
  ((getFieldD country "iso_a3" .null).truthy && decide (getFieldD country "iso_a3" .null = k))

/-- The (possibly empty) candidate list stored under a key. -/
def lookupAll (d : List (String × List JRecord)) (k : String) : List JRecord :=
  (dictGet? d k).getD []

/-- The normalized keys of a glottolog record's raw `isocodes` field. -/
def recordKeys (lang : JRecord) : List String :=
  normalizeIsoCodes (getFieldD lang "isocodes" (.str ""))

/-- One step of the `unmatched_countries` accumulation. -/
def unmatchedStep (centroid_lookup : List (JValue × JRecord))
    (s : List String) (pg : JRecord) : List String :=
  if pgHit centroid_lookup pg then s
  else if (getFieldD pg "ROG3" (.str "")).truthy then
    addToSet s (pyStr (getFieldD pg "ROG3" (.str ""))) else s

/-!
## Helper lemmas about the dictionary model
-/

theorem dictGet?_dictSet {α β : Type} [DecidableEq α] (d : List (α × β)) (k1 k : α) (v : β) :
    dictGet? (dictSet d k1 v) k = if k1 = k then some v else dictGet? d k := by
  induction d with
  | nil => simp [dictSet, dictGet?]
  | cons hd tl ih =>
    obtain ⟨k', v'⟩ := hd
    by_cases h1 : k' = k1
    · subst h1
      by_cases h2 : k' = k <;> simp [dictSet, dictGet?, h2]
    · by_cases h2 : k' = k
      · subst h2
        have : ¬ k1 = k' := fun h => h1 h.symm
        simp [dictSet, dictGet?, h1, this]
      · simp [dictSet, dictGet?, h1, h2, ih]

theorem getField_setField (r : JRecord) (k1 k : String) (v : JValue) :
    getField (setField r k1 v) k = if k1 = k then some v else getField r k := by
  induction r with
  | nil => simp [setField, getField]
  | cons hd tl ih =>
    obtain ⟨k', v'⟩ := hd
    by_cases h1 : k' = k1
    · subst h1
      by_cases h2 : k' = k <;> simp [setField, getField, h2]
    · by_cases h2 : k' = k
      · subst h2
        have : ¬ k1 = k' := fun h => h1 h.symm
        simp [setField, getField, h1, this]
      · simp [setField, getField, h1, h2, ih]

theorem dictGet?_dictAppend {α β : Type} [DecidableEq α]
    (d : List (α × List β)) (k1 k : α) (v : β) :
    dictGet? (dictAppend d k1 v) k =
      if k1 = k then some ((dictGet? d k).getD [] ++ [v]) else dictGet? d k := by
  induction d with
  | nil => simp [dictAppend, dictGet?]
  | cons hd tl ih =>
    obtain ⟨k', vs⟩ := hd
    by_cases h1 : k' = k1
    · subst h1
      by_cases h2 : k' = k <;> simp [dictAppend, dictGet?, h2]
    · by_cases h2 : k' = k
      · subst h2
        have : ¬ k1 = k' := fun h => h1 h.symm
        simp [dictAppend, dictGet?, h1, this]
      · simp [dictAppend, dictGet?, h1, h2, ih]

/-!
## Characterization of the single-valued index build (claim C4)
-/

theorem dictGet?_condSet (d : List (JValue × JRecord)) (country : JRecord) (a k : JValue) :
    dictGet? (if a.truthy then dictSet d a country else d) k =
      if a.truthy && decide (a = k) then some country else dictGet? d k := by
  by_cases hat : a.truthy
  · rw [if_pos hat, dictGet?_dictSet]
    by_cases hae : a = k
    · rw [if_pos hae, if_pos (by rw [Bool.and_eq_true]; exact ⟨hat, by simp [hae]⟩)]
    · rw [if_neg hae, if_neg (by simp [hae])]
  · rw [if_neg hat, if_neg (by simp [hat])]

theorem dictGet?_insertCentroid (lookup : List (JValue × JRecord)) (country : JRecord)
    (k : JValue) :
    dictGet? (insertCentroid lookup country) k =
      if contributesKey country k then some country else dictGet? lookup k := by
  show dictGet?
      (if (getFieldD country "iso_a3" .null).truthy
        then dictSet
          (if (getFieldD country "iso_a2" .null).truthy
            then dictSet lookup (getFieldD country "iso_a2" .null) country else lookup)
          (getFieldD country "iso_a3" .null) country
        else
          (if (getFieldD country "iso_a2" .null).truthy
            then dictSet lookup (getFieldD country "iso_a2" .null) country else lookup)) k = _
  rw [dictGet?_condSet, dictGet?_condSet]
  unfold contributesKey
  by_cases h3 : ((getFieldD country "iso_a3" .null).truthy
      && decide (getFieldD country "iso_a3" .null = k)) <;>
    by_cases h2 : ((getFieldD country "iso_a2" .null).truthy
      && decide (getFieldD country "iso_a2" .null = k)) <;>
    simp [h3, h2]

theorem build_centroid_foldl_char (centroids : List JRecord)
    (lookup : List (JValue × JRecord)) (k : JValue) :
    dictGet? (centroids.foldl insertCentroid lookup) k =
      ((centroids.reverse.find? (fun c => contributesKey c k)).or (dictGet? lookup k)) := by
  induction centroids generalizing lookup with
  | nil => simp
  | cons c rest ih =>
    rw [List.foldl_cons, ih, List.reverse_cons, List.find?_append]
    cases hfind : rest.reverse.find? (fun c => contributesKey c k) with
    | some c' => simp [Option.or]
    | none =>
      simp only [Option.or, dictGet?_insertCentroid]
      by_cases hc : contributesKey c k <;> simp [hc, List.find?]

/-!
## Characterization of the multi-valued index build (claim C5)
-/

theorem lookupAll_dictAppend (d : List (String × List JRecord)) (k1 k : String)
    (v : JRecord) :
    lookupAll (dictAppend d k1 v) k =
      if k1 = k then lookupAll d k ++ [v] else lookupAll d k := by
  unfold lookupAll
  rw [dictGet?_dictAppend]
  by_cases h : k1 = k <;> simp [h]

theorem lookupAll_foldl_codes (codes : List String) (lang : JRecord)
    (d : List (String × List JRecord)) (k : String) :
    lookupAll (codes.foldl (fun acc code => dictAppend acc code lang) d) k =
      lookupAll d k ++ List.replicate (codes.count k) lang := by
  induction codes generalizing d with
  | nil => simp [List.count]
  | cons c rest ih =>
    rw [List.foldl_cons, ih, lookupAll_dictAppend, List.count_cons]
    by_cases h : c = k
    · simp [h, List.replicate_succ, List.append_assoc]
    · simp [h, fun hh : (c == k) = true => h (by simpa using hh)]

theorem lookupAll_insertGlottolog (d : List (String × List JRecord)) (lang : JRecord)
    (k : String) :
    lookupAll (insertGlottolog d lang) k =
      lookupAll d k ++ List.replicate ((recordKeys lang).count k) lang := by
  unfold insertGlottolog recordKeys
  exact lookupAll_foldl_codes _ _ _ _

theorem build_glottolog_foldl_char (glottolog : List JRecord)
    (d : List (String × List JRecord)) (k : String) :
    lookupAll (glottolog.foldl insertGlottolog d) k =
      lookupAll d k ++
        glottolog.flatMap (fun g => List.replicate ((recordKeys g).count k) g) := by
  induction glottolog generalizing d with
  | nil => simp
  | cons g rest ih =>
    rw [List.foldl_cons, ih, lookupAll_insertGlottolog, List.flatMap_cons,
      List.append_assoc]

/-!
## Helper lemmas about the enrichment passes
-/

theorem setField_keep (r : JRecord) (k1 k : String) (v : JValue) (h : k1 ≠ k) :
    getField (setField r k1 v) k = getField r k := by
  rw [getField_setField, if_neg h]

theorem setField_hit (r : JRecord) (k : String) (v : JValue) :
    getField (setField r k v) k = some v := by
  rw [getField_setField, if_pos rfl]

theorem runPass_char (f : JRecord → Option JRecord) :
    ∀ (xs out : List JRecord), runPass f xs = some out →
      out.length = xs.length ∧
      ∀ i (h1 : i < xs.length) (h2 : i < out.length), f xs[i] = some out[i] := by
  intro xs
  induction xs with
  | nil =>
    intro out h
    cases h
    exact ⟨rfl, fun i h1 _ => absurd h1 (Nat.not_lt_zero i)⟩
  | cons x rest ih =>
    intro out h
    unfold runPass at h
    cases hx : f x with
    | none => rw [hx] at h; exact absurd h (by simp)
    | some e =>
      rw [hx] at h
      cases hr : runPass f rest with
      | none => rw [hr] at h; exact absurd h (by simp)
      | some es =>
        rw [hr] at h
        cases h
        obtain ⟨hlen, hidx⟩ := ih es hr
        refine ⟨by simp [hlen], ?_⟩
        intro i h1 h2
        cases i with
        | zero => simpa using hx
        | succ j =>
          have hj1 : j < rest.length := by simpa using h1
          have hj2 : j < es.length := by simpa using h2
          simpa using hidx j hj1 hj2

theorem enrich_people_group_isSome (centroid_lookup : List (JValue × JRecord))
    (pg : JRecord) (hmiss : pgHit centroid_lookup pg = false) :
    enrich_people_group centroid_lookup pg =
      some (setField (setField (setField (setField (setField pg
        "country_latitude" .null) "country_longitude" .null) "continent" .null)
        "region_un" .null) "coordinate_source" .null) := by
  unfold pgHit at hmiss
  cases hl : dictGet? centroid_lookup (getFieldD pg "ROG3" (.str "")) with
  | some c => rw [hl] at hmiss; simp at hmiss
  | none => simp only [enrich_people_group, hl]

theorem enrich_people_group_frame (centroid_lookup : List (JValue × JRecord))
    (pg e : JRecord) (h : enrich_people_group centroid_lookup pg = some e) :
    ∀ k : String, k ∉ pgAddedFields → getField e k = getField pg k := by
  intro k hk
  simp only [pgAddedFields, List.mem_cons, List.not_mem_nil, or_false] at hk
  push_neg at hk
  obtain ⟨h1, h2, h3, h4, h5⟩ := hk
  simp only [enrich_people_group] at h
  split at h
  · split at h
    · cases h
      rw [setField_keep _ _ _ _ (Ne.symm h5), setField_keep _ _ _ _ (Ne.symm h4),
          setField_keep _ _ _ _ (Ne.symm h3), setField_keep _ _ _ _ (Ne.symm h2),
          setField_keep _ _ _ _ (Ne.symm h1)]
    · cases h
  · cases h
    rw [setField_keep _ _ _ _ (Ne.symm h5), setField_keep _ _ _ _ (Ne.symm h4),
        setField_keep _ _ _ _ (Ne.symm h3), setField_keep _ _ _ _ (Ne.symm h2),
        setField_keep _ _ _ _ (Ne.symm h1)]

theorem enrich_language_frame (glottolog_lookup : List (String × List JRecord))
    (family_lookup glottocode_to_family : List (String × String))
    (lang e : JRecord)
    (h : enrich_language glottolog_lookup family_lookup glottocode_to_family lang = some e) :
    ∀ k : String, k ∉ langAddedFields → getField e k = getField lang k := by
  intro k hk
  simp only [langAddedFields, List.mem_cons, List.not_mem_nil, or_false] at hk
  push_neg at hk
  obtain ⟨h1, h2, h3, h4, h5, h6, h7, h8⟩ := hk
  simp only [enrich_language] at h
  split at h
  · split at h
    · cases h
    · cases h
      rw [setField_keep _ _ _ _ (Ne.symm h8), setField_keep _ _ _ _ (Ne.symm h7),
          setField_keep _ _ _ _ (Ne.symm h6), setField_keep _ _ _ _ (Ne.symm h5),
          setField_keep _ _ _ _ (Ne.symm h4), setField_keep _ _ _ _ (Ne.symm h3),
          setField_keep _ _ _ _ (Ne.symm h2), setField_keep _ _ _ _ (Ne.symm h1)]
  · cases h
    rw [setField_keep _ _ _ _ (Ne.symm h8), setField_keep _ _ _ _ (Ne.symm h7),
        setField_keep _ _ _ _ (Ne.symm h6), setField_keep _ _ _ _ (Ne.symm h5),
        setField_keep _ _ _ _ (Ne.symm h4), setField_keep _ _ _ _ (Ne.symm h3),
        setField_keep _ _ _ _ (Ne.symm h2), setField_keep _ _ _ _ (Ne.symm h1)]

theorem mem_addToSet_self (s : List String) (x : String) : x ∈ addToSet s x := by
  unfold addToSet
  by_cases h : s.contains x
  · rw [if_pos h]; simpa using h
  · rw [if_neg h]; simp

theorem mem_addToSet_of_mem (s : List String) (x y : String) (h : y ∈ s) :
    y ∈ addToSet s x := by
  unfold addToSet
  by_cases hc : s.contains x
  · rwa [if_pos hc]
  · rw [if_neg hc]; exact List.mem_append_left _ h

theorem pgUnmatched_eq_foldl (centroid_lookup : List (JValue × JRecord))
    (pgs : List JRecord) :
    pgUnmatched centroid_lookup pgs = pgs.foldl (unmatchedStep centroid_lookup) [] := rfl

theorem mem_unmatchedStep_of_mem (centroid_lookup : List (JValue × JRecord))
    (s : List String) (pg : JRecord) (y : String) (h : y ∈ s) :
    y ∈ unmatchedStep centroid_lookup s pg := by
  unfold unmatchedStep
  split
  · exact h
  · split
    · exact mem_addToSet_of_mem _ _ _ h
    · exact h

theorem mem_foldl_unmatchedStep_of_mem (centroid_lookup : List (JValue × JRecord))
    (pgs : List JRecord) (s : List String) (y : String) (h : y ∈ s) :
    y ∈ pgs.foldl (unmatchedStep centroid_lookup) s := by
  induction pgs generalizing s with
  | nil => exact h
  | cons pg rest ih =>
    exact ih _ (mem_unmatchedStep_of_mem _ _ _ _ h)

theorem mem_foldl_unmatchedStep (centroid_lookup : List (JValue × JRecord))
    (pgs : List JRecord) (pg : JRecord)
    (hmiss : pgHit centroid_lookup pg = false)
    (htruthy : (getFieldD pg "ROG3" (.str "")).truthy = true) :
    ∀ s : List String, pg ∈ pgs →
      pyStr (getFieldD pg "ROG3" (.str "")) ∈ pgs.foldl (unmatchedStep centroid_lookup) s := by
  induction pgs with
  | nil => intro s hmem; cases hmem
  | cons x rest ih =>
    intro s hmem
    rw [List.foldl_cons]
    rcases List.mem_cons.mp hmem with hx | hrest
    · subst hx
      apply mem_foldl_unmatchedStep_of_mem
      unfold unmatchedStep
      rw [hmiss]
      simp only [Bool.false_eq_true, if_false, htruthy, if_true]
      exact mem_addToSet_self _ _
    · exact ih _ hrest

theorem mem_pgUnmatched (centroid_lookup : List (JValue × JRecord))
    (pgs : List JRecord) (pg : JRecord) (hmem : pg ∈ pgs)
    (hmiss : pgHit centroid_lookup pg = false)
    (htruthy : (getFieldD pg "ROG3" (.str "")).truthy = true) :
    pyStr (getFieldD pg "ROG3" (.str "")) ∈ pgUnmatched centroid_lookup pgs := by
  rw [pgUnmatched_eq_foldl]
  exact mem_foldl_unmatchedStep centroid_lookup pgs pg hmiss htruthy [] hmem

/-- A language-miss analogue of `enrich_people_group_isSome`: when the hit
condition `iso_code and iso_code in glottolog_lookup` fails, the loop body
attaches the seven null fields and the zero candidate count. -/
theorem enrich_language_miss (glottolog_lookup : List (String × List JRecord))
    (family_lookup glottocode_to_family : List (String × String)) (lang : JRecord)
    (hmiss : langHit glottolog_lookup lang = false) :
    enrich_language glottolog_lookup family_lookup glottocode_to_family lang =
      some (setField (setField (setField (setField (setField (setField (setField (setField lang
        "latitude" .null) "longitude" .null) "glottocode" .null) "family_name" .null)
        "family_id" .null) "macroarea" .null) "coordinate_source" .null)
        "glottolog_match_count" (.num 0)) := by
  unfold langHit at hmiss
  cases hb : (getFieldD lang "ROL3" (.str "")).truthy
  · simp only [enrich_language, hb, Bool.false_eq_true, if_false]
  · rw [hb] at hmiss
    simp only [Bool.true_and] at hmiss
    cases hsd : strDictGet? glottolog_lookup (getFieldD lang "ROL3" (.str "")) with
    | some entries => rw [hsd] at hmiss; simp at hmiss
    | none => simp only [enrich_language, hb, if_true, hsd]

/-!
## Claims C1–C3: the Family Resolver fallback chain
-/

/-- C1 counterexample.  The claim says: a matched candidate identifier whose
recorded parent does not resolve in the family-name map, but which is itself
a key of that map, resolves to its own name and its own identifier (tier 2).
The code instead never leaves the tier-1 branch once a parent is recorded:
with family-name map `{abc1234: Selfish}` and child-to-parent map
`{abc1234: famX}` (parent `famX` absent from the family-name map), the
resolver returns `("", famX)`, not `("Selfish", "abc1234")` — also shown on
a full matched-candidate run of the language enricher. -/
theorem C1_counterexample :
    resolveFamily [("abc1234", "Selfish")] [("abc1234", "famX")] (.str "abc1234") = ("", "famX")
    ∧ ("", "famX") ≠ ("Selfish", "abc1234")
    ∧ ((enrich_language
          (build_glottolog_lookup [[("isocodes", .str "abc"), ("glottocode", .str "abc1234")]])
          [("abc1234", "Selfish")] [("abc1234", "famX")] [("ROL3", .str "abc")]).map
        (fun e => (getField e "family_name", getField e "family_id")))
      = some (some (.str ""), some (.str "famX")) := by
  refine ⟨by decide, by decide, by decide⟩

/-- C1 amended: whenever the identifier is non-empty and has a recorded
parent-family-identifier, resolution returns that parent identifier together
with `family_lookup.get(parent, '')` — the parent's name when present, and
the empty string when the parent does not resolve; the self-entry fallback
(tier 2) is never consulted in that case. -/
theorem C1_parent_branch_unconditional
    (family_lookup glottocode_to_family : List (String × String)) (s p : String)
    (hs : s ≠ "") (hp : dictGet? glottocode_to_family s = some p) :
    resolveFamily family_lookup glottocode_to_family (.str s) =
      ((dictGet? family_lookup p).getD "", p)
    ∧ (dictGet? family_lookup p = none →
        resolveFamily family_lookup glottocode_to_family (.str s) = ("", p)) := by
  have ht : (JValue.str s).truthy = true := by simp [JValue.truthy, hs]
  constructor
  · simp only [resolveFamily, ht, if_true, hp]
  · intro hnone
    simp only [resolveFamily, ht, if_true, hp, hnone, Option.getD_none]

/-- C1 witness: the amended statement evaluated at the counterexample's
input. -/
theorem C1_witness :
    resolveFamily [("abc9999", "Selfish")] [("abc9999", "famY")] (.str "abc9999") = ("", "famY") :=
  (C1_parent_branch_unconditional [("abc9999", "Selfish")] [("abc9999", "famY")]
    "abc9999" "famY" (by decide) (by decide)).2 (by decide)

/-- C2: tier-1 precedence.  When the identifier is non-empty, its recorded
parent resolves in the family-name map, and the identifier also has a
coincidental self-entry in that map, resolution returns the parent's name
and the parent identifier; and the spec's concrete example `abc1234` /
`{abc1234: fam001}` / `{fam001: Indo-European}` resolves to
`("Indo-European", fam001)`. -/
theorem C2_tier1_precedence
    (family_lookup glottocode_to_family : List (String × String)) (s p name : String)
    (hs : s ≠ "")
    (hparent : dictGet? glottocode_to_family s = some p)
    (hname : dictGet? family_lookup p = some name)
    (_hself : (dictGet? family_lookup s).isSome = true) :
    resolveFamily family_lookup glottocode_to_family (.str s) = (name, p)
    ∧ resolveFamily [("fam001", "Indo-European")] [("abc1234", "fam001")] (.str "abc1234")
        = ("Indo-European", "fam001") := by
  have ht : (JValue.str s).truthy = true := by simp [JValue.truthy, hs]
  exact ⟨by simp only [resolveFamily, ht, if_true, hparent, hname, Option.getD_some], by decide⟩

/-- C2 witness: a family-name map carrying both the parent entry and a
coincidental self-entry; the parent still wins. -/
theorem C2_witness :
    resolveFamily [("fam001", "Indo-European"), ("abc1234", "Coincidence")]
      [("abc1234", "fam001")] (.str "abc1234") = ("Indo-European", "fam001") :=
  (C2_tier1_precedence [("fam001", "Indo-European"), ("abc1234", "Coincidence")]
    [("abc1234", "fam001")] "abc1234" "fam001" "Indo-European"
    (by decide) (by decide) (by decide) (by decide)).1

/-- C3: isolate vs unknown.  For an identifier with no recorded parent:
a self-entry in the family-name map yields its own name and identifier; a
truthy identifier resolving nothing yields the fixed sentinel
`("Isolate", "")`; a falsy (empty/absent) identifier yields `("", "")`;
and the isolate result is distinct from the unknown result.  The
`hwf` hypothesis states that the empty string is not a family identifier
(family identifiers come from the languoid table's `id` column). -/
theorem C3_isolate_vs_unknown
    (family_lookup glottocode_to_family : List (String × String)) (gv : JValue)
    (hwf : dictGet? family_lookup "" = none)
    (hnoparent : strDictGet? glottocode_to_family gv = none) :
    (∀ s name, gv = .str s → dictGet? family_lookup s = some name →
       resolveFamily family_lookup glottocode_to_family gv = (name, s))
    ∧ (gv.truthy = true → strDictGet? family_lookup gv = none →
       resolveFamily family_lookup glottocode_to_family gv = ("Isolate", ""))
    ∧ (gv.truthy = false → resolveFamily family_lookup glottocode_to_family gv = ("", ""))
    ∧ (("Isolate", "") : String × String) ≠ ("", "") := by
  refine ⟨?_, ?_, ?_, by decide⟩
  · intro s name hgv hself
    subst hgv
    have hs : s ≠ "" := by
      intro h0
      rw [h0, hwf] at hself
      cases hself
    have ht : (JValue.str s).truthy = true := by simp [JValue.truthy, hs]
    have hg2f : dictGet? glottocode_to_family s = none := hnoparent
    simp only [resolveFamily, ht, if_true, hg2f, hself]
  · intro ht hnoself
    cases gv with
    | str s =>
      simp only [resolveFamily, ht, if_true, show dictGet? glottocode_to_family s = none
        from hnoparent, show dictGet? family_lookup s = none from hnoself]
    | null => cases ht
    | num q => simp only [resolveFamily, ht, if_true]
    | nan => simp only [resolveFamily, ht, if_true]
    | obj fields => simp only [resolveFamily, ht, if_true]
  · intro hf
    simp only [resolveFamily, hf, Bool.false_eq_true, if_false]

/-- C3 witness: the spec's example `iso9999` (no parent, no self-entry)
resolves to the isolate sentinel, and the empty identifier resolves to the
distinct unknown result. -/
theorem C3_witness :
    resolveFamily [("fam001", "Indo-European")] [] (.str "iso9999") = ("Isolate", "")
    ∧ resolveFamily [("fam001", "Indo-European")] [] (.str "") = ("", "") :=
  ⟨(C3_isolate_vs_unknown [("fam001", "Indo-European")] [] (.str "iso9999")
      (by decide) (by decide)).2.1 (by decide) (by decide),
   (C3_isolate_vs_unknown [("fam001", "Indo-European")] [] (.str "")
      (by decide) (by decide)).2.2.1 (by decide)⟩

/-!
## Claims C4–C5: the Lookup Index Builder
-/

/-- C4: last-write-wins for the single-valued country index.  For every
reference collection and every key, the built index resolves the key to the
last record in source collection order that produces it (`List.find?` on
the reversed collection), so on a duplicate key the later record silently
overwrites the earlier one; in particular the two-record `US` collection
with payloads `10/20` and `99/88` resolves `US` to the second record. -/
theorem C4_last_write_wins :
    (∀ (centroids : List JRecord) (k : JValue),
        dictGet? (build_centroid_lookup centroids) k =
          centroids.reverse.find? (fun c => contributesKey c k))
    ∧ dictGet? (build_centroid_lookup
        [[("iso_a2", .str "US"), ("latitude", .num 10), ("longitude", .num 20)],
         [("iso_a2", .str "US"), ("latitude", .num 99), ("longitude", .num 88)]]) (.str "US")
      = some [("iso_a2", .str "US"), ("latitude", .num 99), ("longitude", .num 88)] := by
  constructor
  · intro centroids k
    have h := build_centroid_foldl_char centroids [] k
    simpa [build_centroid_lookup, dictGet?] using h
  · decide

/-- C5: the multi-valued index build with key normalization.  A raw
`isocodes` value that strips to the empty string or to the literal text
`nan` (which covers an absent field, whose default stringifies to the empty
string, and a float NaN, which stringifies to `nan`) contributes no keys;
any other raw value is split on commas, each part stripped and empty parts
dropped; and the key's candidate list is exactly the source-ordered
records, each repeated once per occurrence of the key among its normalized
codes.  The spec's example: a single record keyed `"eng, en"` makes both
`eng` and `en` resolve to the one-element list holding that record. -/
theorem C5_multi_index_build :
    (∀ raw : JValue, (pyStrip (pyStr raw) = "" ∨ pyStrip (pyStr raw) = "nan") →
        normalizeIsoCodes raw = [])
    ∧ (∀ raw : JValue, pyStrip (pyStr raw) ≠ "" → pyStrip (pyStr raw) ≠ "nan" →
        normalizeIsoCodes raw =
          ((splitComma (pyStrip (pyStr raw))).map pyStrip).filter (fun c => c ≠ ""))
    ∧ (∀ (glottolog : List JRecord) (k : String),
        lookupAll (build_glottolog_lookup glottolog) k =
          glottolog.flatMap (fun g => List.replicate ((recordKeys g).count k) g))
    ∧ dictGet? (build_glottolog_lookup
        [[("isocodes", .str "eng, en"), ("glottocode", .str "stan1293")]]) "eng"
      = some [[("isocodes", .str "eng, en"), ("glottocode", .str "stan1293")]]
    ∧ dictGet? (build_glottolog_lookup
        [[("isocodes", .str "eng, en"), ("glottocode", .str "stan1293")]]) "en"
      = some [[("isocodes", .str "eng, en"), ("glottocode", .str "stan1293")]] := by
  refine ⟨?_, ?_, ?_, by decide, by decide⟩
  · intro raw h
    unfold normalizeIsoCodes
    rcases h with h | h <;> simp [h]
  · intro raw h1 h2
    unfold normalizeIsoCodes
    rw [if_pos ⟨h1, h2⟩]
  · intro glottolog k
    have h := build_glottolog_foldl_char glottolog [] k
    simpa [build_glottolog_lookup, lookupAll, dictGet?] using h

/-- C5 witness: the no-key arm applied to a float NaN raw value. -/
theorem C5_witness :
    (pyStrip (pyStr JValue.nan) = "" ∨ pyStrip (pyStr JValue.nan) = "nan")
    ∧ normalizeIsoCodes JValue.nan = [] :=
  ⟨Or.inr (by decide), C5_multi_index_build.1 JValue.nan (Or.inr (by decide))⟩

/-!
## Claim C6: the language-hit contract
-/

/-- C6: for a language record whose ISO code is a non-empty string present
in the dialect index, the enricher takes the first candidate of the key's
list as authoritative and attaches its latitude and longitude — any value
`pd.isna` holds for (NaN or missing/None, the "non-numeric" sentinels)
coerced to null instead of being propagated or raised — its glottocode and
macroarea, the provenance tag, and the total number of candidates found
for that key. -/
theorem C6_language_hit_contract (glottolog_lookup : List (String × List JRecord))
    (family_lookup glottocode_to_family : List (String × String))
    (lang : JRecord) (s : String) (glotto : JRecord) (rest : List JRecord)
    (hs : getFieldD lang "ROL3" (.str "") = .str s) (hne : s ≠ "")
    (hhit : dictGet? glottolog_lookup s = some (glotto :: rest)) :
    ∃ e, enrich_language glottolog_lookup family_lookup glottocode_to_family lang = some e
      ∧ getField e "latitude" =
          some (if (getFieldD glotto "latitude" .null).isna then .null
                else getFieldD glotto "latitude" .null)
      ∧ getField e "longitude" =
          some (if (getFieldD glotto "longitude" .null).isna then .null
                else getFieldD glotto "longitude" .null)
      ∧ getField e "glottocode" = some (getFieldD glotto "glottocode" (.str ""))
      ∧ getField e "macroarea" = some (getFieldD glotto "macroarea" (.str ""))
      ∧ getField e "coordinate_source" = some (.str "Glottolog")
      ∧ getField e "glottolog_match_count" = some (.num ((glotto :: rest).length : Rat)) := by
  have ht : (getFieldD lang "ROL3" (.str "")).truthy = true := by
    rw [hs]; simp [JValue.truthy, hne]
  have hsd : strDictGet? glottolog_lookup (getFieldD lang "ROL3" (.str ""))
      = some (glotto :: rest) := by
    rw [hs]; exact hhit
  have he : enrich_language glottolog_lookup family_lookup glottocode_to_family lang =
      some (setField (setField (setField (setField (setField (setField (setField (setField lang
        "latitude" (if (getFieldD glotto "latitude" .null).isna then .null
          else getFieldD glotto "latitude" .null))
        "longitude" (if (getFieldD glotto "longitude" .null).isna then .null
          else getFieldD glotto "longitude" .null))
        "glottocode" (getFieldD glotto "glottocode" (.str "")))
        "family_name" (.str (resolveFamily family_lookup glottocode_to_family
          (getFieldD glotto "glottocode" (.str ""))).1))
        "family_id" (.str (resolveFamily family_lookup glottocode_to_family
          (getFieldD glotto "glottocode" (.str ""))).2))
        "macroarea" (getFieldD glotto "macroarea" (.str "")))
        "coordinate_source" (.str "Glottolog"))
        "glottolog_match_count" (.num ((glotto :: rest).length : Rat))) := by
    simp only [enrich_language, ht, if_true, hsd]
  refine ⟨_, he, ?_, ?_, ?_, ?_, ?_, ?_⟩ <;> simp [getField_setField]

/-- C6 witness: a one-candidate hit whose latitude is NaN (nulled), with
longitude, glottocode, macroarea, provenance and candidate count attached. -/
theorem C6_witness :
    ∃ e, enrich_language
        (build_glottolog_lookup [[("isocodes", .str "eng, en"), ("glottocode", .str "stan1293"),
          ("latitude", .nan), ("longitude", .num 52), ("macroarea", .str "Eurasia")]])
        [] [] [("ROL3", .str "eng")] = some e
      ∧ getField e "latitude" = some JValue.null
      ∧ getField e "longitude" = some (.num 52)
      ∧ getField e "glottocode" = some (.str "stan1293")
      ∧ getField e "macroarea" = some (.str "Eurasia")
      ∧ getField e "coordinate_source" = some (.str "Glottolog")
      ∧ getField e "glottolog_match_count" = some (.num ((1 : Nat) : Rat)) :=
  C6_language_hit_contract _ [] [] [("ROL3", .str "eng")] "eng"
    [("isocodes", .str "eng, en"), ("glottocode", .str "stan1293"),
      ("latitude", .nan), ("longitude", .num 52), ("macroarea", .str "Eurasia")] []
    (by decide) (by decide) (by decide)

/-!
## Claim C7: the miss contract
-/

/-- C7 counterexample.  The claim asserts every missed primary record gets
exactly the declared additional field names with null values; but in the
cross-dataset denormalizer (`create_enriched_datasets.enrich_people_group`)
a record missing both lookups is returned unchanged: no `country_data` or
`language_data` field is present at all (absent, not null), and no
diagnostic set exists in that pass. -/
theorem C7_counterexample :
    enrich_people_group_full [] [] [("ROG3", .str "ZZ"), ("ROL3", .str "zzz")]
      = [("ROG3", .str "ZZ"), ("ROL3", .str "zzz")]
    ∧ getField (enrich_people_group_full [] [] [("ROG3", .str "ZZ"), ("ROL3", .str "zzz")])
        "country_data" = none
    ∧ getField (enrich_people_group_full [] [] [("ROG3", .str "ZZ"), ("ROL3", .str "zzz")])
        "language_data" = none := by
  refine ⟨by decide, by decide, by decide⟩

/-- C7 amended: in the coordinate-enrichment passes a missed record gets
exactly the declared additional fields, all null (with a zero candidate
count for language records), the original fields unchanged, and a non-empty
unmatched code lands in the diagnostic set while processing continues; in
the cross-dataset denormalization pass, by contrast, a missed lookup
attaches nothing at all — the nested field is absent rather than null — and
no diagnostics are recorded. -/
theorem C7_miss_contract
    (centroid_lookup : List (JValue × JRecord))
    (glottolog_lookup : List (String × List JRecord))
    (family_lookup glottocode_to_family : List (String × String))
    (countries languages : List (JValue × JRecord))
    (pg lang pgf : JRecord)
    (hpgmiss : pgHit centroid_lookup pg = false)
    (hlangmiss : langHit glottolog_lookup lang = false)
    (hfullc : (if (getFieldD pgf "ROG3" .null).truthy
        then dictGet? countries (getFieldD pgf "ROG3" .null) else none) = none)
    (hfulll : (if (getFieldD pgf "ROL3" .null).truthy
        then dictGet? languages (getFieldD pgf "ROL3" .null) else none) = none) :
    (∃ e, enrich_people_group centroid_lookup pg = some e
       ∧ (∀ k ∈ pgAddedFields, getField e k = some JValue.null)
       ∧ (∀ k ∉ pgAddedFields, getField e k = getField pg k))
    ∧ (∃ e, enrich_language glottolog_lookup family_lookup glottocode_to_family lang = some e
       ∧ (∀ k ∈ langAddedFields, k ≠ "glottolog_match_count" → getField e k = some JValue.null)
       ∧ getField e "glottolog_match_count" = some (.num 0)
       ∧ (∀ k ∉ langAddedFields, getField e k = getField lang k))
    ∧ enrich_people_group_full countries languages pgf = pgf
    ∧ (∀ (code : String) (pgs : List JRecord), pg ∈ pgs →
         getFieldD pg "ROG3" (.str "") = .str code → code ≠ "" →
         code ∈ pgUnmatched centroid_lookup pgs) := by
  refine ⟨?_, ?_, ?_, ?_⟩
  · refine ⟨_, enrich_people_group_isSome centroid_lookup pg hpgmiss, ?_, ?_⟩
    · intro k hk
      simp only [pgAddedFields, List.mem_cons, List.not_mem_nil, or_false] at hk
      rcases hk with rfl | rfl | rfl | rfl | rfl <;> simp [getField_setField]
    · exact enrich_people_group_frame centroid_lookup pg _
        (enrich_people_group_isSome centroid_lookup pg hpgmiss)
  · refine ⟨_, enrich_language_miss glottolog_lookup family_lookup glottocode_to_family
      lang hlangmiss, ?_, ?_, ?_⟩
    · intro k hk hkc
      simp only [langAddedFields, List.mem_cons, List.not_mem_nil, or_false] at hk
      rcases hk with rfl | rfl | rfl | rfl | rfl | rfl | rfl | rfl <;>
        first
          | exact absurd rfl hkc
          | simp [getField_setField]
    · simp [getField_setField]
    · exact enrich_language_frame glottolog_lookup family_lookup glottocode_to_family lang _
        (enrich_language_miss glottolog_lookup family_lookup glottocode_to_family lang hlangmiss)
  · simp only [enrich_people_group_full, hfullc, hfulll]
  · intro code pgs hmem hcode hcne
    have ht : (getFieldD pg "ROG3" (.str "")).truthy = true := by
      rw [hcode]; simp [JValue.truthy, hcne]
    have h := mem_pgUnmatched centroid_lookup pgs pg hmem hpgmiss ht
    rwa [hcode] at h

/-- C7 witness: the cross-dataset conjunct evaluated on a record whose
country code misses a non-trivial country index. -/
theorem C7_witness :
    enrich_people_group_full [(.str "US", [("iso_a2", .str "US")])] [] [("ROG3", .str "Q2")]
      = [("ROG3", .str "Q2")] :=
  (C7_miss_contract [] [] [] [] [(.str "US", [("iso_a2", .str "US")])] []
    [("ROG3", .str "QQ")] [("ROL3", .str "qq")] [("ROG3", .str "Q2")]
    (by decide) (by decide) (by decide) (by decide)).2.2.1

/-!
## Claim C8: the frame property of enrichment
-/

/-- C8: each enrichment pass returns a collection of the same length, in
the same order, and the record at every position agrees with the input
record at that position on all of the input record's own fields, given the
claim's own premise that the added field names are disjoint from the input
records' fields (and given that the pass completed; the embedding is pure,
so the input collection itself is trivially left unmodified). -/
theorem C8_frame_property
    (centroid_lookup : List (JValue × JRecord))
    (glottolog_lookup : List (String × List JRecord))
    (family_lookup glottocode_to_family : List (String × String))
    (pgs out langs outl : List JRecord)
    (hpg : enrich_people_groups centroid_lookup pgs = some out)
    (hlang : enrich_languages_pass glottolog_lookup family_lookup glottocode_to_family langs
      = some outl)
    (hdisj1 : ∀ pg ∈ pgs, ∀ k ∈ pgAddedFields, getField pg k = none)
    (hdisj2 : ∀ l ∈ langs, ∀ k ∈ langAddedFields, getField l k = none) :
    out.length = pgs.length
    ∧ (∀ (i : Nat) (h1 : i < pgs.length) (h2 : i < out.length) (k : String),
        getField pgs[i] k ≠ none → getField out[i] k = getField pgs[i] k)
    ∧ outl.length = langs.length
    ∧ (∀ (i : Nat) (h1 : i < langs.length) (h2 : i < outl.length) (k : String),
        getField langs[i] k ≠ none → getField outl[i] k = getField langs[i] k) := by
  have hpg' : runPass (enrich_people_group centroid_lookup) pgs = some out := hpg
  have hlang' : runPass
      (enrich_language glottolog_lookup family_lookup glottocode_to_family) langs
      = some outl := hlang
  obtain ⟨hl1, hi1⟩ := runPass_char _ pgs out hpg'
  obtain ⟨hl2, hi2⟩ := runPass_char _ langs outl hlang'
  refine ⟨hl1, ?_, hl2, ?_⟩
  · intro i h1 h2 k hk
    have hmem : pgs[i] ∈ pgs := List.getElem_mem h1
    have hnotin : k ∉ pgAddedFields := fun hin => hk (hdisj1 _ hmem k hin)
    exact enrich_people_group_frame _ _ _ (hi1 i h1 h2) k hnotin
  · intro i h1 h2 k hk
    have hmem : langs[i] ∈ langs := List.getElem_mem h1
    have hnotin : k ∉ langAddedFields := fun hin => hk (hdisj2 _ hmem k hin)
    exact enrich_language_frame _ _ _ _ _ (hi2 i h1 h2) k hnotin

/-- C8 witness: on a matched one-record collection the original `ROG3`
field survives enrichment unchanged. -/
theorem C8_witness :
    getField [("ROG3", .str "US"), ("country_latitude", .num 38),
        ("country_longitude", .num (-97)), ("continent", .str ""), ("region_un", .str ""),
        ("coordinate_source", .str "Natural Earth (country centroid)")] "ROG3"
      = getField [("ROG3", .str "US")] "ROG3" :=
  (C8_frame_property
    (build_centroid_lookup [[("iso_a2", .str "US"), ("latitude", .num 38),
      ("longitude", .num (-97))]]) [] [] []
    [[("ROG3", .str "US")]]
    [[("ROG3", .str "US"), ("country_latitude", .num 38),
      ("country_longitude", .num (-97)), ("continent", .str ""), ("region_un", .str ""),
      ("coordinate_source", .str "Natural Earth (country centroid)")]]
    [] []
    (by decide) (by decide)
    (by intro pg hpg k hkmem
        simp only [List.mem_singleton] at hpg
        subst hpg
        simp only [pgAddedFields, List.mem_cons, List.not_mem_nil, or_false] at hkmem
        rcases hkmem with rfl | rfl | rfl | rfl | rfl <;> decide)
    (by intro l hl; cases hl)).2.1
    0 (by decide) (by decide) "ROG3" (by decide)

/-!
## Claim C9: completion and reporting
-/

/-- C9 counterexample.  The claim says the pass completes and reports for
every primary collection including edge cases, sampling the first five
unmatched keys.  On the empty collection the rate computation
`100 * matched / len(people_groups)` divides by zero (`pgReport` is
`none`); and with six unmatched codes the printed sample is
`sorted(...)[:10]` — all six keys, not the first five. -/
theorem C9_counterexample :
    pgReport [] [] = none
    ∧ (pgReport [] [[("ROG3", .str "u1")], [("ROG3", .str "u2")], [("ROG3", .str "u3")],
        [("ROG3", .str "u4")], [("ROG3", .str "u5")], [("ROG3", .str "u6")]]).map
        CoverageReport.sample = some ["u1", "u2", "u3", "u4", "u5", "u6"]
    ∧ (pgReport [] [[("ROG3", .str "u1")], [("ROG3", .str "u2")], [("ROG3", .str "u3")],
        [("ROG3", .str "u4")], [("ROG3", .str "u5")], [("ROG3", .str "u6")]]).map
        CoverageReport.sample
      ≠ some ((sortStrs ["u1", "u2", "u3", "u4", "u5", "u6"]).take 5) := by
  refine ⟨rfl, by decide, by decide⟩

/-- C9 amended: for every primary collection on which the loop completes
and which is non-empty, the pass reports the total count, the matched
count, the match rate rendered to one decimal percentage (`66.7%` for 2 of
3), and a sample of the first ten (not five) unmatched keys in ascending
order; on an empty collection the rate computation raises
`ZeroDivisionError` and nothing is reported. -/
theorem C9_reporting (centroid_lookup : List (JValue × JRecord))
    (pgs out : List JRecord)
    (hok : enrich_people_groups centroid_lookup pgs = some out) (hne : pgs ≠ []) :
    (∃ rep, pgReport centroid_lookup pgs = some rep
      ∧ rep.total = pgs.length
      ∧ rep.matched = pgMatched centroid_lookup pgs
      ∧ rep.rate = fmtPercent (pgMatched centroid_lookup pgs) pgs.length
      ∧ rep.sample = (sortStrs (pgUnmatched centroid_lookup pgs)).take 10
      ∧ rep.sample.length ≤ 10)
    ∧ pgReport centroid_lookup [] = none
    ∧ fmtPercent 2 3 = "66.7%"
    ∧ (pgReport (build_centroid_lookup [[("iso_a2", .str "US"), ("latitude", .num 38),
          ("longitude", .num (-97))]])
        [[("ROG3", .str "US")], [("ROG3", .str "US")], [("ROG3", .str "QQ")]]).map
        (fun r => (r.total, r.matched, r.rate, r.sample))
      = some (3, 2, "66.7%", ["QQ"]) := by
  have hlen : ¬ pgs.length = 0 := fun h => hne (List.length_eq_zero.mp h)
  have hrep : pgReport centroid_lookup pgs = some
      { total := pgs.length
        matched := pgMatched centroid_lookup pgs
        rate := fmtPercent (pgMatched centroid_lookup pgs) pgs.length
        sample := (sortStrs (pgUnmatched centroid_lookup pgs)).take 10 } := by
    simp only [pgReport, hok, hlen, if_false]
  refine ⟨⟨_, hrep, rfl, rfl, rfl, rfl, ?_⟩, rfl, by decide, by decide⟩
  exact List.length_take_le 10 (sortStrs (pgUnmatched centroid_lookup pgs))

/-- C9 witness: the three-record, two-matched run reports `66.7%` and the
single unmatched code. -/
theorem C9_witness :
    (pgReport (build_centroid_lookup [[("iso_a2", .str "US"), ("latitude", .num 38),
        ("longitude", .num (-97))]])
      [[("ROG3", .str "US")], [("ROG3", .str "US")], [("ROG3", .str "QQ")]]).map
      (fun r => (r.total, r.matched, r.rate, r.sample))
    = some (3, 2, "66.7%", ["QQ"]) :=
  (C9_reporting (build_centroid_lookup [[("iso_a2", .str "US"), ("latitude", .num 38),
      ("longitude", .num (-97))]])
    [[("ROG3", .str "US")], [("ROG3", .str "US")], [("ROG3", .str "QQ")]]
    [[("ROG3", .str "US"), ("country_latitude", .num 38), ("country_longitude", .num (-97)),
      ("continent", .str ""), ("region_un", .str ""),
      ("coordinate_source", .str "Natural Earth (country centroid)")],
     [("ROG3", .str "US"), ("country_latitude", .num 38), ("country_longitude", .num (-97)),
      ("continent", .str ""), ("region_un", .str ""),
      ("coordinate_source", .str "Natural Earth (country centroid)")],
     [("ROG3", .str "QQ"), ("country_latitude", JValue.null),
      ("country_longitude", JValue.null), ("continent", JValue.null),
      ("region_un", JValue.null), ("coordinate_source", JValue.null)]]
    (by decide) (by decide)).2.2.2

/-!
## Claim C10: metadata coverage counts truthy latitudes, not matches
-/

/-- The latitude attached to a miss is null, hence never truthy. -/
theorem lat_of_miss (centroid_lookup : List (JValue × JRecord)) (pg e : JRecord)
    (hmiss : pgHit centroid_lookup pg = false)
    (he : enrich_people_group centroid_lookup pg = some e) :
    (getFieldD e "country_latitude" .null).truthy = false := by
  rw [enrich_people_group_isSome centroid_lookup pg hmiss] at he
  cases he
  simp [getFieldD, getField_setField, JValue.truthy]

/-- Records counted by `pg_with_coords` are at most the matched records. -/
theorem pgWithCoords_le_matched (centroid_lookup : List (JValue × JRecord)) :
    ∀ (pgs out : List JRecord),
      runPass (enrich_people_group centroid_lookup) pgs = some out →
      pgWithCoords out ≤ pgMatched centroid_lookup pgs := by
  intro pgs
  induction pgs with
  | nil =>
    intro out h
    cases h
    simp [pgWithCoords, pgMatched]
  | cons pg rest ih =>
    intro out h
    unfold runPass at h
    cases hx : enrich_people_group centroid_lookup pg with
    | none => rw [hx] at h; exact absurd h (by simp)
    | some e =>
      rw [hx] at h
      cases hr : runPass (enrich_people_group centroid_lookup) rest with
      | none => rw [hr] at h; exact absurd h (by simp)
      | some es =>
        rw [hr] at h
        cases h
        have hrec := ih es hr
        unfold pgWithCoords pgMatched at hrec ⊢
        rw [List.countP_cons, List.countP_cons]
        by_cases hhit : pgHit centroid_lookup pg
        · have hle : (if (getFieldD e "country_latitude" .null).truthy = true
              then 1 else 0) ≤ 1 := by split <;> omega
          simp only [hhit, if_true]
          omega
        · have hlat := lat_of_miss centroid_lookup pg e (Bool.of_not_eq_true hhit) hx
          simp only [hlat, Bool.false_eq_true, if_false, hhit]
          omega

/-- C10: the persisted coverage statistic counts a record only when its
attached `country_latitude` is truthy, never more than the matched count;
a record whose attached latitude is null or `0`/`0.0` is excluded; and on
a concrete run matching all records through a centroid with latitude `0`,
the match rate is `100.0%` while the metadata coverage is `0.0%` —
strictly less. -/
theorem C10_coverage_truthy (centroid_lookup : List (JValue × JRecord))
    (pgs out : List JRecord)
    (hok : enrich_people_groups centroid_lookup pgs = some out) :
    pgWithCoords out ≤ pgMatched centroid_lookup pgs
    ∧ pgWithCoords [[("country_latitude", JValue.null)]] = 0
    ∧ pgWithCoords [[("country_latitude", JValue.num 0)]] = 0
    ∧ (enrich_people_groups
        (build_centroid_lookup [[("iso_a2", .str "EQ"), ("latitude", .num 0),
          ("longitude", .num 30)]])
        [[("ROG3", .str "EQ")]]
      = some [[("ROG3", .str "EQ"), ("country_latitude", .num 0),
          ("country_longitude", .num 30), ("continent", .str ""), ("region_un", .str ""),
          ("coordinate_source", .str "Natural Earth (country centroid)")]]
      ∧ pgMatched (build_centroid_lookup [[("iso_a2", .str "EQ"), ("latitude", .num 0),
          ("longitude", .num 30)]]) [[("ROG3", .str "EQ")]] = 1
      ∧ pgWithCoords [[("ROG3", .str "EQ"), ("country_latitude", .num 0),
          ("country_longitude", .num 30), ("continent", .str ""), ("region_un", .str ""),
          ("coordinate_source", .str "Natural Earth (country centroid)")]] = 0
      ∧ fmtPercent 0 1 = "0.0%"
      ∧ fmtPercent 1 1 = "100.0%") := by
  refine ⟨pgWithCoords_le_matched centroid_lookup pgs out hok, by decide, by decide, by decide⟩

/-- C10 witness: the bound evaluated on the latitude-zero run. -/
theorem C10_witness :
    pgWithCoords [[("ROG3", .str "EQ"), ("country_latitude", .num 0),
        ("country_longitude", .num 30), ("continent", .str ""), ("region_un", .str ""),
        ("coordinate_source", .str "Natural Earth (country centroid)")]]
      ≤ pgMatched (build_centroid_lookup [[("iso_a2", .str "EQ"), ("latitude", .num 0),
        ("longitude", .num 30)]]) [[("ROG3", .str "EQ")]] :=
  (C10_coverage_truthy
    (build_centroid_lookup [[("iso_a2", .str "EQ"), ("latitude", .num 0),
      ("longitude", .num 30)]])
    [[("ROG3", .str "EQ")]]
    [[("ROG3", .str "EQ"), ("country_latitude", .num 0), ("country_longitude", .num 30),
      ("continent", .str ""), ("region_un", .str ""),
      ("coordinate_source", .str "Natural Earth (country centroid)")]]
    (by decide)).1

end JoshuaGeo
